import Mathlib

/-!
Verification of the `exif_batch` batch-mutation engine
(`src/exif_batch_set.cpp`) against its natural-language specification.

The C++ program is embedded shallowly:

* C++ `std::string` paths and contents become Lean `String` / `List Nat`.
* The filesystem is an association list from paths to byte contents;
  the newest binding for a path shadows the older ones.
* Operating-system and external-library behaviour that the program only
  observes (whether an `ofstream` open succeeds, whether a stream write
  succeeds, what the exiv2 codec does to a file's bytes) is an `Env`
  of oracle functions passed to the embedded operations.
* Directory traversal output (`std::filesystem::directory_iterator`)
  is part of the `World`: a listing function from root path and
  recursion flag to the finite list of entries seen by the loop.
* The functions `IsValidExifDateTime`, `ToLower`, `IsJpegPath`,
  `CopyFileBinary`, `UpdateExifInPlace` and `main` are translated
  line by line from the source.
-/

namespace ExifBatch

/-- File contents: a sequence of bytes. -/
abbrev Bytes := List Nat

/-- Filesystem state: association list from path to contents.
The first binding for a path is the current one. -/
abbrev FS := List (String × Bytes)

/-- Read a file's contents, `none` when the path does not exist. -/
def fsRead (fs : FS) (p : String) : Option Bytes :=
  match fs.find? (fun e => e.1 == p) with
  | some e => some e.2
  | none => none

/-- Create or overwrite a file (`fs::exists` and stream opens observe
the newest binding). -/
def fsWrite (fs : FS) (p : String) (b : Bytes) : FS :=
  (p, b) :: fs

/-- Existence check `fs::exists`: the path has contents. -/
def fsExists (fs : FS) (p : String) : Bool :=
  (fsRead fs p).isSome

/-- The lambda `is_digit` in `IsValidExifDateTime`: `c >= '0' && c <= '9'`. -/
def isDigitChar (c : Char) : Bool :=
  decide ('0' ≤ c) && decide (c ≤ '9')

/-- The index list iterated by the digit loop in `IsValidExifDateTime`. -/
def digitPositions : List Nat := [0, 1, 2, 3, 5, 6, 8, 9, 11, 12, 14, 15, 17, 18]

/-- Translation of `IsValidExifDateTime` from the source: length 19, digits at
`digitPositions`, then the five separator characters. -/
def IsValidExifDateTime (s : String) : Bool :=
  if s.data.length ≠ 19 then false
  else
    (digitPositions.all fun i => isDigitChar (s.data.getD i ' ')) &&
    (s.data.getD 4 ' ' == ':' && s.data.getD 7 ' ' == ':' &&
     s.data.getD 10 ' ' == ' ' && s.data.getD 13 ' ' == ':' &&
     s.data.getD 16 ' ' == ':')

/-- ASCII `std::tolower` on one character (C locale). -/
def toLowerChar (c : Char) : Char :=
  if 'A' ≤ c ∧ c ≤ 'Z' then Char.ofNat (c.toNat + 32) else c

/-- Translation of `ToLower` from the source, on the character sequence of a string. -/
def ToLower (s : List Char) : List Char := s.map toLowerChar

/-- A character that separates path components (`/`, and `\` on the
Windows target the program is written for). -/
def isSep (c : Char) : Bool := c == '/' || c == '\\'

/-- Model of `fs::path::filename()`: the maximal suffix free of separators. -/
def filenameChars (l : List Char) : List Char :=
  ((l.reverse).takeWhile fun c => !isSep c).reverse

/-- Model of `fs::path::extension()` applied to a filename `f`: the suffix from
the last dot, empty when `f` is `.` or `..`, has no dot, or the last
dot is its first character. -/
def extensionChars (f : List Char) : List Char :=
  if f = ['.'] ∨ f = ['.', '.'] then []
  else
    if (f.reverse.takeWhile fun c => c ≠ '.').length = f.reverse.length then []
    else if (f.reverse.takeWhile fun c => c ≠ '.').length + 1 = f.reverse.length
      then []
    else ((f.reverse.takeWhile fun c => c ≠ '.') ++ ['.']).reverse

/-- Translation of `IsJpegPath` from the source: the lowercased extension is `.jpg`
or `.jpeg`. -/
def IsJpegPath (p : String) : Bool :=
  ToLower (extensionChars (filenameChars p.data)) == ".jpg".data ||
  ToLower (extensionChars (filenameChars p.data)) == ".jpeg".data

/-- Oracles for the behaviour the program only observes: whether a
backup destination opens and writes cleanly, how many bytes a failed
write leaves behind, and what the external exiv2 codec does to a
file's bytes for a given timestamp (`Except.error` models a thrown
`Exiv2::Error` / `std::exception`, a null image, or a write fault). -/
structure Env where
  dstOpenOk : String → Bool
  writeOk : String → Bool
  cut : String → Nat
  codec : String → Bytes → Except String Bytes

/-- Translation of `CopyFileBinary` from the source. Returns the C++ function's
`bool` result, the `*err` message when it failed, and the filesystem
after the call: opening the destination truncates it, a clean write
stores the full source bytes, a failed write leaves a prefix. -/
def CopyFileBinary (env : Env) (fs : FS) (src dst : String) :
    Bool × Option String × FS :=
  match fsRead fs src with
  | none => (false, some "failed to open source for backup", fs)
  | some bytes =>
    if !env.dstOpenOk dst then
      (false, some "failed to open destination for backup", fs)
    else if !env.writeOk dst then
      (false, some "failed while writing backup",
       fsWrite fs dst (bytes.take (env.cut dst)))
    else
      (true, none, fsWrite fs dst bytes)

/-- The exiv2 block of `UpdateExifInPlace`: open the image, set the
three timestamp tags, write the metadata back. Every codec fault is
the `Except.error` branch, which the C++ `catch` clauses turn into a
`false` return with the file untouched. -/
def mutateStep (env : Env) (fs : FS) (file dt : String) : Bool × FS :=
  match fsRead fs file with
  | none => (false, fs)
  | some bytes =>
    match env.codec dt bytes with
    | .error _ => (false, fs)
    | .ok newBytes => (true, fsWrite fs file newBytes)

/-- Translation of `UpdateExifInPlace` from the source: dry-run short-circuit, backup
guard (existence check, then binary copy), then the metadata write. -/
def UpdateExifInPlace (env : Env) (fs : FS) (file dt : String)
    (dry_run make_backup : Bool) : Bool × FS :=
  if dry_run then (true, fs)
  else
    let backup_path := file ++ ".bak"
    if make_backup then
      if fsExists fs backup_path then (false, fs)
      else
        match CopyFileBinary env fs file backup_path with
        | (false, _, fs') => (false, fs')
        | (true, _, fs') => mutateStep env fs' file dt
    else mutateStep env fs file dt

/-- One entry yielded by a `directory_iterator`. -/
structure Entry where
  path : String
  isRegularFile : Bool
deriving DecidableEq

/-- The run counters of `main` (`total`, `ok`, `skipped`), the evolving
filesystem, and the trace of files passed to `UpdateExifInPlace`. -/
structure RunState where
  total : Nat
  ok : Nat
  skipped : Nat
  fs : FS
  calls : List String
deriving DecidableEq

/-- Counters zeroed, no call made yet. -/
def initState (fs : FS) : RunState := ⟨0, 0, 0, fs, []⟩

/-- The `process_entry` lambda of `main`. -/
def process_entry (env : Env) (dt : String) (dry_run make_backup : Bool)
    (s : RunState) (e : Entry) : RunState :=
  if !e.isRegularFile then s
  else if !IsJpegPath e.path then { s with skipped := s.skipped + 1 }
  else
    let s1 := { s with total := s.total + 1, calls := s.calls ++ [e.path] }
    match UpdateExifInPlace env s1.fs e.path dt dry_run make_backup with
    | (true, fs') => { s1 with ok := s1.ok + 1, fs := fs' }
    | (false, fs') => { s1 with fs := fs' }

/-- The traversal loop of `main`: `process_entry` over every yielded
entry in order. -/
def runLoop (env : Env) (dt : String) (dry_run make_backup : Bool)
    (entries : List Entry) (s : RunState) : RunState :=
  entries.foldl (process_entry env dt dry_run make_backup) s

/-- The option-parsing loop of `main` (`i = 3; i < argc`), carrying
`recursive`, `dry_run`, `make_backup`; `none` on an unknown option. -/
def parseFlagsAux : List String → Bool → Bool → Bool →
    Option (Bool × Bool × Bool)
  | [], r, d, b => some (r, d, b)
  | o :: rest, r, d, b =>
    if o = "--recursive" then parseFlagsAux rest true d b
    else if o = "--dry-run" then parseFlagsAux rest r true b
    else if o = "--no-backup" then parseFlagsAux rest r d false
    else none

/-- Some option is not one of the three known flags. -/
def hasUnknownFlag (opts : List String) : Bool :=
  opts.any fun o =>
    !(o == "--recursive" || o == "--dry-run" || o == "--no-backup")

/-- The observable environment of one invocation: what the directory
iterators yield for the root (per recursion flag), whether the root
exists and is a directory, the initial filesystem, and the I/O &
codec oracles. -/
structure World where
  listing : String → Bool → List Entry
  dirOk : String → Bool
  fs : FS
  env : Env

/-- Exit status of the process together with the final run state. -/
structure MainResult where
  exitCode : Nat
  state : RunState

/-- Entries that enter the candidate branch: regular files passing
`IsJpegPath`. -/
def passFilter (e : Entry) : Bool := e.isRegularFile && IsJpegPath e.path

/-- Entries counted as `skipped`: regular files failing `IsJpegPath`. -/
def skipFilter (e : Entry) : Bool := e.isRegularFile && !IsJpegPath e.path

/-- The spec's reading of the timestamp format, stated positionally:
exactly 19 characters, a colon at indices 4, 7, 13 and 16, a space at
index 10, and a decimal digit everywhere else. -/
def TimestampSpec (s : String) : Prop :=
  s.data.length = 19 ∧
  ∀ i, i < 19 →
    (if i = 4 ∨ i = 7 ∨ i = 13 ∨ i = 16 then s.data.getD i ' ' = ':'
     else if i = 10 then s.data.getD i ' ' = ' '
     else isDigitChar (s.data.getD i ' ') = true)

/-- The characters of the fixed backup suffix `".bak"`. -/
def bakChars : List Char := ['.', 'b', 'a', 'k']

/-- Translation of `main` from the source: argument-count check, positional arguments,
flag parsing, timestamp validation, root check, traversal loop, and
the final `ok == total ? 0 : 1`. `argv` includes the program name. -/
def main (argv : List String) (w : World) : MainResult :=
  if argv.length < 3 then ⟨2, initState w.fs⟩
  else
    let folder := argv.getD 1 ""
    let dt := argv.getD 2 ""
    match parseFlagsAux (argv.drop 3) false false true with
    | none => ⟨2, initState w.fs⟩
    | some (recursive, dry_run, make_backup) =>
      if !IsValidExifDateTime dt then ⟨2, initState w.fs⟩
      else if !w.dirOk folder then ⟨2, initState w.fs⟩
      else
        let final := runLoop w.env dt dry_run make_backup
          (w.listing folder recursive) (initState w.fs)
        ⟨if final.ok = final.total then 0 else 1, final⟩

/-! Basic filesystem lemmas. -/

theorem fsRead_fsWrite (fs : FS) (p : String) (b : Bytes) (q : String) :
    fsRead (fsWrite fs p b) q = if q = p then some b else fsRead fs q := by
  by_cases h : q = p
  · subst h
    simp [fsRead, fsWrite, List.find?]
  · have hb : (p == q) = false := by
      simp [Ne.symm h]
    simp [fsRead, fsWrite, List.find?, hb, h]

theorem append_bak_ne (file : String) : file ++ ".bak" ≠ file := by
  intro h
  have hd : (file ++ ".bak").data = file.data := congrArg String.data h
  rw [String.data_append] at hd
  have := congrArg List.length hd
  simp at this

/-- Claim C1: with `makeBackup` enabled and `dryRun` disabled, a
pre-existing backup path makes processing the file fail, with no
mutation attempted and the whole filesystem (in particular the file's
contents) unchanged. -/
theorem backup_exists_blocks_processing (env : Env) (fs : FS) (file dt : String)
    (h : fsExists fs (file ++ ".bak") = true) :
    UpdateExifInPlace env fs file dt false true = (false, fs) := by
  simp [UpdateExifInPlace, h]

/-- Witness for C1 at a concrete filesystem holding `a.jpg.bak`. -/
theorem backup_exists_blocks_processing_witness :
    fsExists [("a.jpg.bak", [7]), ("a.jpg", [1, 2])] ("a.jpg" ++ ".bak") = true ∧
    UpdateExifInPlace
      ⟨fun _ => true, fun _ => true, fun _ => 0, fun _ b => .ok b⟩
      [("a.jpg.bak", [7]), ("a.jpg", [1, 2])] "a.jpg" "2026:02:25 18:30:00"
      false true
      = (false, [("a.jpg.bak", [7]), ("a.jpg", [1, 2])]) :=
  ⟨by decide,
   backup_exists_blocks_processing
     ⟨fun _ => true, fun _ => true, fun _ => 0, fun _ b => .ok b⟩
     [("a.jpg.bak", [7]), ("a.jpg", [1, 2])] "a.jpg" "2026:02:25 18:30:00"
     (by decide)⟩

/-- Claim C7: a successful backup copy leaves the backup path holding
exactly the source's pre-mutation bytes (truncating, never appending
to, whatever was at the destination); every open or write failure
returns failure with a cause message; and inside `UpdateExifInPlace` a
failed copy makes the file's processing fail with the file's own
contents unchanged (no mutation attempted). -/
theorem backup_copy_correct (env : Env) (fs : FS) (src dst : String) :
    ((CopyFileBinary env fs src dst).1 = true →
       fsRead (CopyFileBinary env fs src dst).2.2 dst = fsRead fs src) ∧
    ((CopyFileBinary env fs src dst).1 = false →
       ((CopyFileBinary env fs src dst).2.1).isSome = true) ∧
    (∀ file dtv : String,
       fsExists fs (file ++ ".bak") = false →
       (CopyFileBinary env fs file (file ++ ".bak")).1 = false →
       (UpdateExifInPlace env fs file dtv false true).1 = false ∧
       fsRead (UpdateExifInPlace env fs file dtv false true).2 file =
         fsRead fs file) := by
  refine ⟨?_, ?_, ?_⟩
  · intro h
    unfold CopyFileBinary at h ⊢
    cases hr : fsRead fs src with
    | none => simp [hr] at h
    | some bytes =>
      by_cases h1 : env.dstOpenOk dst
      · by_cases h2 : env.writeOk dst
        · simp [hr, h1, h2, fsRead_fsWrite]
        · simp [hr, h1, h2] at h
      · simp [hr, h1] at h
  · intro h
    unfold CopyFileBinary at h ⊢
    cases hr : fsRead fs src with
    | none => simp
    | some bytes =>
      by_cases h1 : env.dstOpenOk dst
      · by_cases h2 : env.writeOk dst
        · simp [hr, h1, h2] at h
        · simp [h1, h2]
      · simp [h1]
  · intro file dtv hex hfail
    unfold UpdateExifInPlace CopyFileBinary
    unfold CopyFileBinary at hfail
    cases hr : fsRead fs file with
    | none => simp [hex, hr]
    | some bytes =>
      by_cases h1 : env.dstOpenOk (file ++ ".bak")
      · by_cases h2 : env.writeOk (file ++ ".bak")
        · simp [hr, h1, h2] at hfail
        · simp [hex, hr, h1, h2, fsRead_fsWrite, Ne.symm (append_bak_ne file)]
      · simp [hex, hr, h1]

/-- Witness for C7: a concrete successful copy, a concrete failing
copy, and the failing copy blocking mutation. -/
theorem backup_copy_correct_witness :
    (CopyFileBinary ⟨fun _ => true, fun _ => true, fun _ => 0, fun _ b => .ok b⟩
       [("a.jpg", [1, 2])] "a.jpg" "a.jpg.bak").1 = true ∧
    fsRead (CopyFileBinary
       ⟨fun _ => true, fun _ => true, fun _ => 0, fun _ b => .ok b⟩
       [("a.jpg", [1, 2])] "a.jpg" "a.jpg.bak").2.2 "a.jpg.bak" =
      fsRead [("a.jpg", [1, 2])] "a.jpg" ∧
    fsExists [("a.jpg", [1, 2])] ("a.jpg" ++ ".bak") = false ∧
    (CopyFileBinary ⟨fun _ => false, fun _ => true, fun _ => 0, fun _ b => .ok b⟩
       [("a.jpg", [1, 2])] "a.jpg" ("a.jpg" ++ ".bak")).1 = false ∧
    (UpdateExifInPlace ⟨fun _ => false, fun _ => true, fun _ => 0, fun _ b => .ok b⟩
       [("a.jpg", [1, 2])] "a.jpg" "2026:02:25 18:30:00" false true).1 = false :=
  ⟨by decide,
   (backup_copy_correct ⟨fun _ => true, fun _ => true, fun _ => 0, fun _ b => .ok b⟩
      [("a.jpg", [1, 2])] "a.jpg" "a.jpg.bak").1 (by decide),
   by decide, by decide,
   ((backup_copy_correct ⟨fun _ => false, fun _ => true, fun _ => 0, fun _ b => .ok b⟩
      [("a.jpg", [1, 2])] "a.jpg" "ignored").2.2 "a.jpg" "2026:02:25 18:30:00"
      (by decide) (by decide)).1⟩

/-! Loop lemmas. -/

theorem runLoop_nil (env : Env) (dt : String) (dr mb : Bool) (s : RunState) :
    runLoop env dt dr mb [] s = s := rfl

theorem runLoop_cons (env : Env) (dt : String) (dr mb : Bool)
    (e : Entry) (rest : List Entry) (s : RunState) :
    runLoop env dt dr mb (e :: rest) s =
      runLoop env dt dr mb rest (process_entry env dt dr mb s e) := rfl

theorem process_entry_fields (env : Env) (dt : String) (dr mb : Bool)
    (s : RunState) (e : Entry) :
    (process_entry env dt dr mb s e).total =
      s.total + (if passFilter e = true then 1 else 0) ∧
    (process_entry env dt dr mb s e).skipped =
      s.skipped + (if skipFilter e = true then 1 else 0) ∧
    (process_entry env dt dr mb s e).calls =
      s.calls ++ (if passFilter e = true then [e.path] else []) ∧
    s.ok ≤ (process_entry env dt dr mb s e).ok ∧
    (process_entry env dt dr mb s e).ok ≤
      s.ok + (if passFilter e = true then 1 else 0) := by
  unfold process_entry passFilter skipFilter
  by_cases hreg : e.isRegularFile = true
  · by_cases hj : IsJpegPath e.path = true
    · rcases hU : UpdateExifInPlace env s.fs e.path dt dr mb with ⟨b, fs'⟩
      cases b <;> simp [hreg, hj, hU]
    · simp [hreg, hj]
  · simp [hreg]

theorem runLoop_total (env : Env) (dt : String) (dr mb : Bool) :
    ∀ (entries : List Entry) (s : RunState),
      (runLoop env dt dr mb entries s).total =
        s.total + (entries.filter passFilter).length := by
  intro entries
  induction entries with
  | nil => intro s; simp [runLoop_nil]
  | cons e rest ih =>
    intro s
    rw [runLoop_cons, ih, (process_entry_fields env dt dr mb s e).1]
    by_cases hp : passFilter e = true <;> simp [List.filter_cons, hp] <;> omega

theorem runLoop_skipped (env : Env) (dt : String) (dr mb : Bool) :
    ∀ (entries : List Entry) (s : RunState),
      (runLoop env dt dr mb entries s).skipped =
        s.skipped + (entries.filter skipFilter).length := by
  intro entries
  induction entries with
  | nil => intro s; simp [runLoop_nil]
  | cons e rest ih =>
    intro s
    rw [runLoop_cons, ih, (process_entry_fields env dt dr mb s e).2.1]
    by_cases hp : skipFilter e = true <;> simp [List.filter_cons, hp] <;> omega

theorem runLoop_calls (env : Env) (dt : String) (dr mb : Bool) :
    ∀ (entries : List Entry) (s : RunState),
      (runLoop env dt dr mb entries s).calls =
        s.calls ++ (entries.filter passFilter).map Entry.path := by
  intro entries
  induction entries with
  | nil => intro s; simp [runLoop_nil]
  | cons e rest ih =>
    intro s
    rw [runLoop_cons, ih, (process_entry_fields env dt dr mb s e).2.2.1]
    by_cases hp : passFilter e = true <;> simp [List.filter_cons, hp]

theorem runLoop_ok_le_total (env : Env) (dt : String) (dr mb : Bool) :
    ∀ (entries : List Entry) (s : RunState), s.ok ≤ s.total →
      (runLoop env dt dr mb entries s).ok ≤
        (runLoop env dt dr mb entries s).total := by
  intro entries
  induction entries with
  | nil => intro s h; simpa [runLoop_nil] using h
  | cons e rest ih =>
    intro s h
    rw [runLoop_cons]
    apply ih
    obtain ⟨ht, -, -, -, hub⟩ := process_entry_fields env dt dr mb s e
    omega

theorem process_entry_dry (env : Env) (dt : String) (mb : Bool)
    (s : RunState) (e : Entry) :
    process_entry env dt true mb s e =
      if passFilter e = true then
        { s with total := s.total + 1, ok := s.ok + 1,
                 calls := s.calls ++ [e.path] }
      else if skipFilter e = true then { s with skipped := s.skipped + 1 }
      else s := by
  unfold process_entry passFilter skipFilter
  by_cases hreg : e.isRegularFile = true
  · by_cases hj : IsJpegPath e.path = true
    · simp [hreg, hj, UpdateExifInPlace]
    · simp [hreg, hj]
  · simp [hreg]

theorem runLoop_dry (env : Env) (dt : String) (mb : Bool) :
    ∀ (entries : List Entry) (s : RunState),
      runLoop env dt true mb entries s =
        ⟨s.total + (entries.filter passFilter).length,
         s.ok + (entries.filter passFilter).length,
         s.skipped + (entries.filter skipFilter).length,
         s.fs,
         s.calls ++ (entries.filter passFilter).map Entry.path⟩ := by
  intro entries
  induction entries with
  | nil => intro s; cases s; simp [runLoop_nil]
  | cons e rest ih =>
    intro s
    rw [runLoop_cons, ih, process_entry_dry]
    by_cases hp : passFilter e = true
    · have hq : skipFilter e = false := by
        unfold passFilter at hp
        unfold skipFilter
        simp at hp ⊢
        intro h
        exact hp.2
      simp [List.filter_cons, hp, hq]
      all_goals omega
    · by_cases hq : skipFilter e = true <;>
        simp [List.filter_cons, hp, hq] <;> try omega

theorem update_codec_error (env : Env) (fs : FS) (file dtv : String)
    (bytes : Bytes) (e : String) (mb : Bool)
    (hr : fsRead fs file = some bytes) (hc : env.codec dtv bytes = .error e) :
    (UpdateExifInPlace env fs file dtv false mb).1 = false := by
  unfold UpdateExifInPlace
  cases mb with
  | false => simp [mutateStep, hr, hc]
  | true =>
    by_cases hex : fsExists fs (file ++ ".bak") = true
    · simp [hex]
    · rcases hC : CopyFileBinary env fs file (file ++ ".bak") with ⟨b, err, fs'⟩
      cases b with
      | false => simp [hex, hC]
      | true =>
        have hC' := hC
        unfold CopyFileBinary at hC'
        rw [hr] at hC'
        by_cases h1 : env.dstOpenOk (file ++ ".bak")
        · by_cases h2 : env.writeOk (file ++ ".bak")
          · simp [h1, h2, Prod.ext_iff] at hC'
            obtain ⟨-, hF⟩ := hC'
            simp [hex, hC, mutateStep, ← hF, fsRead_fsWrite,
                  Ne.symm (append_bak_ne file), hr, hc]
          · simp [h1, h2, Prod.ext_iff] at hC'
        · simp [h1, Prod.ext_iff] at hC'

/-- Claim C8: every failure of the external metadata codec is caught
and becomes that file's failure outcome (the per-file step always
returns an outcome, never an uncaught fault), and the loop passes each
filter-passing candidate to `UpdateExifInPlace` exactly once, in
order, whatever the earlier files' outcomes were. -/
theorem codec_failure_isolated :
    (∀ (env : Env) (fs : FS) (file dtv : String) (bytes : Bytes)
       (e : String) (mb : Bool),
       fsRead fs file = some bytes → env.codec dtv bytes = .error e →
       (UpdateExifInPlace env fs file dtv false mb).1 = false) ∧
    (∀ (env : Env) (dtv : String) (dr mb : Bool) (entries : List Entry)
       (fs : FS),
       (runLoop env dtv dr mb entries (initState fs)).calls =
         (entries.filter passFilter).map Entry.path) := by
  constructor
  · intro env fs file dtv bytes e mb hr hc
    exact update_codec_error env fs file dtv bytes e mb hr hc
  · intro env dtv dr mb entries fs
    simpa [initState] using runLoop_calls env dtv dr mb entries (initState fs)

/-- Witness for C8: a codec that always throws makes the concrete file
fail, and a two-candidate run still attempts both files. -/
theorem codec_failure_isolated_witness :
    (UpdateExifInPlace ⟨fun _ => true, fun _ => true, fun _ => 0,
        fun _ _ => .error "throw"⟩
      [("a.jpg", [1])] "a.jpg" "2026:02:25 18:30:00" false false).1 = false ∧
    (runLoop ⟨fun _ => true, fun _ => true, fun _ => 0, fun _ _ => .error "throw"⟩
      "2026:02:25 18:30:00" false false
      [⟨"a.jpg", true⟩, ⟨"b.jpg", true⟩] (initState [("a.jpg", [1])])).calls =
      ([⟨"a.jpg", true⟩, ⟨"b.jpg", true⟩].filter passFilter).map Entry.path :=
  ⟨codec_failure_isolated.1 ⟨fun _ => true, fun _ => true, fun _ => 0,
      fun _ _ => .error "throw"⟩
    [("a.jpg", [1])] "a.jpg" "2026:02:25 18:30:00" [1] "throw" false
    (by decide) rfl,
   codec_failure_isolated.2 ⟨fun _ => true, fun _ => true, fun _ => 0,
      fun _ _ => .error "throw"⟩
    "2026:02:25 18:30:00" false false
    [⟨"a.jpg", true⟩, ⟨"b.jpg", true⟩] [("a.jpg", [1])]⟩

/-- Claim C5: after any prefix of the traversal (and hence at the end)
`succeeded ≤ total` holds, and the final `total` counts exactly the
traversed entries passing the type filter, whatever each file's
outcome. -/
theorem counters_invariant (env : Env) (dt : String) (dr mb : Bool)
    (entries : List Entry) (fs : FS) :
    (∀ n, (runLoop env dt dr mb (entries.take n) (initState fs)).ok ≤
          (runLoop env dt dr mb (entries.take n) (initState fs)).total) ∧
    (runLoop env dt dr mb entries (initState fs)).total =
      (entries.filter passFilter).length := by
  constructor
  · intro n
    exact runLoop_ok_le_total env dt dr mb (entries.take n) (initState fs)
      (Nat.le_refl 0)
  · simpa [initState] using runLoop_total env dt dr mb entries (initState fs)

/-- Witness for C5 on a two-entry traversal. -/
theorem counters_invariant_witness :
    (runLoop ⟨fun _ => true, fun _ => true, fun _ => 0, fun _ b => .ok b⟩
      "2026:02:25 18:30:00" false true
      ([⟨"a.jpg", true⟩, ⟨"b.txt", true⟩].take 1) (initState [])).ok ≤
    (runLoop ⟨fun _ => true, fun _ => true, fun _ => 0, fun _ b => .ok b⟩
      "2026:02:25 18:30:00" false true
      ([⟨"a.jpg", true⟩, ⟨"b.txt", true⟩].take 1) (initState [])).total ∧
    (runLoop ⟨fun _ => true, fun _ => true, fun _ => 0, fun _ b => .ok b⟩
      "2026:02:25 18:30:00" false true
      [⟨"a.jpg", true⟩, ⟨"b.txt", true⟩] (initState [])).total =
      ([(⟨"a.jpg", true⟩ : Entry), ⟨"b.txt", true⟩].filter passFilter).length :=
  ⟨(counters_invariant ⟨fun _ => true, fun _ => true, fun _ => 0, fun _ b => .ok b⟩
      "2026:02:25 18:30:00" false true
      [⟨"a.jpg", true⟩, ⟨"b.txt", true⟩] []).1 1,
   (counters_invariant ⟨fun _ => true, fun _ => true, fun _ => 0, fun _ b => .ok b⟩
      "2026:02:25 18:30:00" false true
      [⟨"a.jpg", true⟩, ⟨"b.txt", true⟩] []).2⟩

/-- Claim C10: when `dryRun` is true the `makeBackup` flag is
irrelevant: both settings give the same per-file outcome, namely
success with the filesystem untouched. -/
theorem dry_run_ignores_backup_flag (env : Env) (fs : FS) (file dt : String)
    (b1 b2 : Bool) :
    UpdateExifInPlace env fs file dt true b1 =
      UpdateExifInPlace env fs file dt true b2 ∧
    UpdateExifInPlace env fs file dt true b1 = (true, fs) := by
  simp [UpdateExifInPlace]

/-- Witness for C10 on a concrete file, for both flag values. -/
theorem dry_run_ignores_backup_flag_witness :
    UpdateExifInPlace ⟨fun _ => true, fun _ => true, fun _ => 0, fun _ b => .ok b⟩
      [("a.jpg", [1])] "a.jpg" "2026:02:25 18:30:00" true true =
    UpdateExifInPlace ⟨fun _ => true, fun _ => true, fun _ => 0, fun _ b => .ok b⟩
      [("a.jpg", [1])] "a.jpg" "2026:02:25 18:30:00" true false ∧
    UpdateExifInPlace ⟨fun _ => true, fun _ => true, fun _ => 0, fun _ b => .ok b⟩
      [("a.jpg", [1])] "a.jpg" "2026:02:25 18:30:00" true true =
      (true, [("a.jpg", [1])]) :=
  dry_run_ignores_backup_flag
    ⟨fun _ => true, fun _ => true, fun _ => 0, fun _ b => .ok b⟩
    [("a.jpg", [1])] "a.jpg" "2026:02:25 18:30:00" true false

/-- Claim C3: the validator accepts exactly the 19-character strings
with colons at indices 4, 7, 13, 16, a space at index 10, and decimal
digits elsewhere; no calendar check is made, so month 13 passes. -/
theorem timestamp_validator_characterization :
    (∀ s, IsValidExifDateTime s = true ↔ TimestampSpec s) ∧
    IsValidExifDateTime "2026:13:25 18:30:00" = true := by
  constructor
  · intro s
    constructor
    · intro h
      unfold IsValidExifDateTime at h
      split at h
      · simp at h
      · rename_i hlen
        have hlen' : s.data.length = 19 := by omega
        simp only [digitPositions, List.all_cons, List.all_nil,
                   Bool.and_eq_true, beq_iff_eq] at h
        refine ⟨hlen', ?_⟩
        intro i hi
        interval_cases i <;> simp_all
    · rintro ⟨hlen, hall⟩
      have h0 := hall 0 (by omega)
      have h1 := hall 1 (by omega)
      have h2 := hall 2 (by omega)
      have h3 := hall 3 (by omega)
      have h4 := hall 4 (by omega)
      have h5 := hall 5 (by omega)
      have h6 := hall 6 (by omega)
      have h7 := hall 7 (by omega)
      have h8 := hall 8 (by omega)
      have h9 := hall 9 (by omega)
      have h10 := hall 10 (by omega)
      have h11 := hall 11 (by omega)
      have h12 := hall 12 (by omega)
      have h13 := hall 13 (by omega)
      have h14 := hall 14 (by omega)
      have h15 := hall 15 (by omega)
      have h16 := hall 16 (by omega)
      have h17 := hall 17 (by omega)
      have h18 := hall 18 (by omega)
      norm_num at h0 h1 h2 h3 h4 h5 h6 h7 h8 h9 h10 h11 h12 h13 h14 h15 h16 h17 h18
      unfold IsValidExifDateTime
      rw [if_neg (by omega)]
      simp [digitPositions, h0, h1, h2, h3, h4, h5, h6, h7, h8, h9, h10,
            h11, h12, h13, h14, h15, h16, h17, h18]
  · decide

/-- Witness for C3: the concrete valid timestamp satisfies the
positional specification. -/
theorem timestamp_validator_characterization_witness :
    TimestampSpec "2026:02:25 18:30:00" :=
  (timestamp_validator_characterization.1 "2026:02:25 18:30:00").mp (by decide)

/-! Path lemmas for the backup suffix. -/

theorem filenameChars_append_bak (l : List Char) :
    filenameChars (l ++ bakChars) = filenameChars l ++ bakChars := by
  unfold filenameChars bakChars
  rw [List.reverse_append]
  rw [show (['.', 'b', 'a', 'k'] : List Char).reverse = ['k', 'a', 'b', '.'] from
        by decide]
  rw [List.takeWhile_append_of_pos (by decide)]
  rw [List.reverse_append]
  rw [show (['k', 'a', 'b', '.'] : List Char).reverse = ['.', 'b', 'a', 'k'] from
        by decide]

theorem extensionChars_append_bak (f : List Char) :
    extensionChars (f ++ bakChars) = if f = [] then [] else bakChars := by
  by_cases hf : f = []
  · subst hf
    decide
  · have hne : ¬(f ++ bakChars = ['.'] ∨ f ++ bakChars = ['.', '.']) := by
      rintro (h | h) <;>
        · have := congrArg List.length h
          simp [bakChars] at this
    have hrev : (f ++ bakChars).reverse = 'k' :: 'a' :: 'b' :: '.' :: f.reverse := by
      simp [bakChars]
    have htake : ((f ++ bakChars).reverse.takeWhile fun c => c ≠ '.') =
        ['k', 'a', 'b'] := by
      rw [hrev]
      rw [List.takeWhile_cons_of_pos (by decide),
          List.takeWhile_cons_of_pos (by decide),
          List.takeWhile_cons_of_pos (by decide),
          List.takeWhile_cons_of_neg (by decide)]
    unfold extensionChars
    rw [if_neg hne, htake, hrev]
    rw [if_neg (by simp)]
    rw [if_neg (by simp; exact hf)]
    rw [if_neg hf]
    decide

/-- Claim C9: appending the `.bak` backup suffix to any path yields a
path whose extension is `.bak`, which the jpeg filter rejects; hence
no run ever passes a `.bak`-suffixed path to backup or mutation. -/
theorem bak_suffix_never_jpeg :
    (∀ p : String, IsJpegPath (p ++ ".bak") = false) ∧
    (∀ (env : Env) (dt : String) (dr mb : Bool) (entries : List Entry)
       (fs : FS) (q : String),
       ¬ (q ++ ".bak") ∈ (runLoop env dt dr mb entries (initState fs)).calls) := by
  have hmain : ∀ p : String, IsJpegPath (p ++ ".bak") = false := by
    intro p
    unfold IsJpegPath
    have hdata : (p ++ ".bak").data = p.data ++ bakChars := by
      rw [String.data_append]; rfl
    rw [hdata, filenameChars_append_bak, extensionChars_append_bak]
    by_cases hf : filenameChars p.data = []
    · rw [if_pos hf]
      decide
    · rw [if_neg hf]
      decide
  refine ⟨hmain, ?_⟩
  intro env dt dr mb entries fs q hmem
  rw [runLoop_calls env dt dr mb entries (initState fs)] at hmem
  simp only [initState, List.nil_append, List.mem_map] at hmem
  obtain ⟨e, he, hpath⟩ := hmem
  have hpass := List.of_mem_filter he
  unfold passFilter at hpass
  simp only [Bool.and_eq_true] at hpass
  have hj := hpass.2
  rw [hpath, hmain q] at hj
  exact Bool.false_ne_true hj

/-- Witness for C9: `a.jpg.bak` concretely fails the filter, and the
concrete one-entry run over `a.jpg.bak` calls no file. -/
theorem bak_suffix_never_jpeg_witness :
    IsJpegPath ("a.jpg" ++ ".bak") = false ∧
    ¬ ("a.jpg" ++ ".bak") ∈ (runLoop
        ⟨fun _ => true, fun _ => true, fun _ => 0, fun _ b => .ok b⟩
        "2026:02:25 18:30:00" false true [⟨"a.jpg.bak", true⟩]
        (initState [("a.jpg.bak", [7])])).calls :=
  ⟨bak_suffix_never_jpeg.1 "a.jpg",
   bak_suffix_never_jpeg.2
     ⟨fun _ => true, fun _ => true, fun _ => 0, fun _ b => .ok b⟩
     "2026:02:25 18:30:00" false true [⟨"a.jpg.bak", true⟩]
     [("a.jpg.bak", [7])] "a.jpg"⟩

/-! Lemmas about `main`. -/

theorem parseFlagsAux_none :
    ∀ (opts : List String) (r d b : Bool),
      parseFlagsAux opts r d b = none ↔ hasUnknownFlag opts = true := by
  intro opts
  induction opts with
  | nil => intro r d b; simp [parseFlagsAux, hasUnknownFlag]
  | cons o rest ih =>
    intro r d b
    unfold parseFlagsAux hasUnknownFlag
    by_cases h1 : o = "--recursive"
    · simp [h1, List.any_cons, ih, hasUnknownFlag]
    · by_cases h2 : o = "--dry-run"
      · simp [h1, h2, List.any_cons, ih, hasUnknownFlag]
      · by_cases h3 : o = "--no-backup"
        · simp [h1, h2, h3, List.any_cons, ih, hasUnknownFlag]
        · simp [h1, h2, h3, List.any_cons]

theorem main_eq_run (argv : List String) (w : World) (r d b : Bool)
    (hlen : ¬ argv.length < 3)
    (hflags : parseFlagsAux (argv.drop 3) false false true = some (r, d, b))
    (hdt : IsValidExifDateTime (argv.getD 2 "") = true)
    (hdir : w.dirOk (argv.getD 1 "") = true) :
    main argv w =
      ⟨if (runLoop w.env (argv.getD 2 "") d b (w.listing (argv.getD 1 "") r)
            (initState w.fs)).ok =
          (runLoop w.env (argv.getD 2 "") d b (w.listing (argv.getD 1 "") r)
            (initState w.fs)).total
        then 0 else 1,
       runLoop w.env (argv.getD 2 "") d b (w.listing (argv.getD 1 "") r)
         (initState w.fs)⟩ := by
  unfold main
  rw [if_neg hlen, hflags]
  simp only [hdt, hdir, Bool.not_true, Bool.false_eq_true, if_false]

theorem main_bad_len (argv : List String) (w : World) (hlen : argv.length < 3) :
    main argv w = ⟨2, initState w.fs⟩ := by
  unfold main
  rw [if_pos hlen]

theorem main_bad_flags (argv : List String) (w : World)
    (hlen : ¬ argv.length < 3)
    (hflags : parseFlagsAux (argv.drop 3) false false true = none) :
    main argv w = ⟨2, initState w.fs⟩ := by
  unfold main
  rw [if_neg hlen, hflags]

theorem main_bad_dt (argv : List String) (w : World) (r d b : Bool)
    (hlen : ¬ argv.length < 3)
    (hflags : parseFlagsAux (argv.drop 3) false false true = some (r, d, b))
    (hdt : IsValidExifDateTime (argv.getD 2 "") = false) :
    main argv w = ⟨2, initState w.fs⟩ := by
  unfold main
  rw [if_neg hlen, hflags]
  simp only [hdt, Bool.not_false, if_true]

theorem main_bad_dir (argv : List String) (w : World) (r d b : Bool)
    (hlen : ¬ argv.length < 3)
    (hflags : parseFlagsAux (argv.drop 3) false false true = some (r, d, b))
    (hdt : IsValidExifDateTime (argv.getD 2 "") = true)
    (hdir : w.dirOk (argv.getD 1 "") = false) :
    main argv w = ⟨2, initState w.fs⟩ := by
  unfold main
  rw [if_neg hlen, hflags]
  simp only [hdt, hdir, Bool.not_true, Bool.not_false, Bool.false_eq_true,
             if_false, if_true]

/-- Claim C2: the exit status is 2 exactly for usage and validation
errors (argument count, unknown flag, invalid timestamp, bad root), in
which case the run state is still initial (no file touched, no call
made); otherwise it is 0 when `succeeded = total` and 1 when not. -/
theorem exit_code_policy (argv : List String) (w : World) :
    ((main argv w).exitCode = 2 ↔
       (argv.length < 3 ∨ hasUnknownFlag (argv.drop 3) = true ∨
        IsValidExifDateTime (argv.getD 2 "") = false ∨
        w.dirOk (argv.getD 1 "") = false)) ∧
    ((main argv w).exitCode = 2 → (main argv w).state = initState w.fs) ∧
    ((main argv w).exitCode ≠ 2 →
       (main argv w).exitCode =
         if (main argv w).state.ok = (main argv w).state.total then 0 else 1) := by
  by_cases hlen : argv.length < 3
  · rw [main_bad_len argv w hlen]
    exact ⟨⟨fun _ => Or.inl hlen, fun _ => rfl⟩, fun _ => rfl,
           fun h => absurd rfl h⟩
  · cases hflags : parseFlagsAux (argv.drop 3) false false true with
    | none =>
      have hunk : hasUnknownFlag (argv.drop 3) = true :=
        (parseFlagsAux_none (argv.drop 3) false false true).mp hflags
      rw [main_bad_flags argv w hlen hflags]
      exact ⟨⟨fun _ => Or.inr (Or.inl hunk), fun _ => rfl⟩, fun _ => rfl,
             fun h => absurd rfl h⟩
    | some rdb =>
      obtain ⟨r, d, b⟩ := rdb
      have hunk : hasUnknownFlag (argv.drop 3) = false := by
        rw [← Bool.not_eq_true]
        intro h
        have h2 := (parseFlagsAux_none (argv.drop 3) false false true).mpr h
        rw [hflags] at h2
        exact Option.some_ne_none _ h2
      by_cases hdt : IsValidExifDateTime (argv.getD 2 "") = true
      · by_cases hdir : w.dirOk (argv.getD 1 "") = true
        · rw [main_eq_run argv w r d b hlen hflags hdt hdir]
          generalize runLoop w.env (argv.getD 2 "") d b
            (w.listing (argv.getD 1 "") r) (initState w.fs) = st
          refine ⟨⟨fun h => ?_, fun h => ?_⟩, fun h => ?_, fun _ => rfl⟩
          · exfalso
            have h2 : (if st.ok = st.total then 0 else 1) = 2 := h
            by_cases hc : st.ok = st.total
            · rw [if_pos hc] at h2
              simp at h2
            · rw [if_neg hc] at h2
              simp at h2
          · exfalso
            rcases h with h | h | h | h
            · exact hlen h
            · rw [hunk] at h
              simp at h
            · rw [hdt] at h
              simp at h
            · rw [hdir] at h
              simp at h
          · exfalso
            have h2 : (if st.ok = st.total then 0 else 1) = 2 := h
            by_cases hc : st.ok = st.total
            · rw [if_pos hc] at h2
              simp at h2
            · rw [if_neg hc] at h2
              simp at h2
        · have hdir' : w.dirOk (argv.getD 1 "") = false := by
            simpa using hdir
          rw [main_bad_dir argv w r d b hlen hflags hdt hdir']
          exact ⟨⟨fun _ => Or.inr (Or.inr (Or.inr hdir')), fun _ => rfl⟩,
                 fun _ => rfl, fun h => absurd rfl h⟩
      · have hdt' : IsValidExifDateTime (argv.getD 2 "") = false := by
          simpa using hdt
        rw [main_bad_dt argv w r d b hlen hflags hdt']
        exact ⟨⟨fun _ => Or.inr (Or.inr (Or.inl hdt')), fun _ => rfl⟩,
               fun _ => rfl, fun h => absurd rfl h⟩

/-- Witness for C2: one argument only gives exit status 2. -/
theorem exit_code_policy_witness :
    (main ["exe"]
      ⟨fun _ _ => [], fun _ => true, [],
       ⟨fun _ => true, fun _ => true, fun _ => 0, fun _ b => .ok b⟩⟩).exitCode
      = 2 :=
  (exit_code_policy ["exe"]
    ⟨fun _ _ => [], fun _ => true, [],
     ⟨fun _ => true, fun _ => true, fun _ => 0, fun _ b => .ok b⟩⟩).1.mpr
    (Or.inl (by decide))

/-- Claim C4: a validated dry-run leaves the filesystem exactly as it
was (no backup check, copy or metadata write), counts every candidate
as succeeded, and exits with status 0. -/
theorem dry_run_no_writes (argv : List String) (w : World) (r b : Bool)
    (hlen : ¬ argv.length < 3)
    (hflags : parseFlagsAux (argv.drop 3) false false true = some (r, true, b))
    (hdt : IsValidExifDateTime (argv.getD 2 "") = true)
    (hdir : w.dirOk (argv.getD 1 "") = true) :
    (main argv w).state.fs = w.fs ∧
    (main argv w).state.ok = (main argv w).state.total ∧
    (main argv w).exitCode = 0 := by
  have hm := main_eq_run argv w r true b hlen hflags hdt hdir
  rw [hm]
  rw [runLoop_dry]
  simp [initState]

/-- Witness for C4 on a one-candidate dry run. -/
theorem dry_run_no_writes_witness :
    (main ["exe", "d", "2026:02:25 18:30:00", "--dry-run"]
      ⟨fun _ _ => [⟨"a.jpg", true⟩], fun _ => true, [("a.jpg", [1])],
       ⟨fun _ => true, fun _ => true, fun _ => 0, fun _ b => .ok b⟩⟩).state.fs =
      [("a.jpg", [1])] ∧
    (main ["exe", "d", "2026:02:25 18:30:00", "--dry-run"]
      ⟨fun _ _ => [⟨"a.jpg", true⟩], fun _ => true, [("a.jpg", [1])],
       ⟨fun _ => true, fun _ => true, fun _ => 0, fun _ b => .ok b⟩⟩).state.ok =
    (main ["exe", "d", "2026:02:25 18:30:00", "--dry-run"]
      ⟨fun _ _ => [⟨"a.jpg", true⟩], fun _ => true, [("a.jpg", [1])],
       ⟨fun _ => true, fun _ => true, fun _ => 0, fun _ b => .ok b⟩⟩).state.total ∧
    (main ["exe", "d", "2026:02:25 18:30:00", "--dry-run"]
      ⟨fun _ _ => [⟨"a.jpg", true⟩], fun _ => true, [("a.jpg", [1])],
       ⟨fun _ => true, fun _ => true, fun _ => 0, fun _ b => .ok b⟩⟩).exitCode =
      0 :=
  dry_run_no_writes ["exe", "d", "2026:02:25 18:30:00", "--dry-run"]
    ⟨fun _ _ => [⟨"a.jpg", true⟩], fun _ => true, [("a.jpg", [1])],
     ⟨fun _ => true, fun _ => true, fun _ => 0, fun _ b => .ok b⟩⟩
    false true (by decide) rfl (by decide) rfl

/-- Claim C6: a validated non-recursive run counts as `total` exactly
the listed regular files passing the jpeg filter and as `skipped`
exactly the listed regular files failing it, passes only
filter-passing paths to processing, and these counts do not depend on
file contents or on the I/O and codec oracles. -/
theorem nonrecursive_counts (argv : List String) (w : World) (d b : Bool)
    (hlen : ¬ argv.length < 3)
    (hflags : parseFlagsAux (argv.drop 3) false false true = some (false, d, b))
    (hdt : IsValidExifDateTime (argv.getD 2 "") = true)
    (hdir : w.dirOk (argv.getD 1 "") = true) :
    (main argv w).state.total =
      ((w.listing (argv.getD 1 "") false).filter passFilter).length ∧
    (main argv w).state.skipped =
      ((w.listing (argv.getD 1 "") false).filter skipFilter).length ∧
    (∀ p ∈ (main argv w).state.calls, IsJpegPath p = true) ∧
    (∀ (fs' : FS) (env' : Env),
       (main argv (⟨w.listing, w.dirOk, fs', env'⟩ : World)).state.total =
         (main argv w).state.total ∧
       (main argv (⟨w.listing, w.dirOk, fs', env'⟩ : World)).state.skipped =
         (main argv w).state.skipped) := by
  have hm := main_eq_run argv w false d b hlen hflags hdt hdir
  refine ⟨?_, ?_, ?_, ?_⟩
  · rw [hm]
    simp [runLoop_total, initState]
  · rw [hm]
    simp [runLoop_skipped, initState]
  · rw [hm]
    simp only [runLoop_calls, initState, List.nil_append]
    intro p hp
    obtain ⟨e, he, hpe⟩ := List.mem_map.mp hp
    have hpass := List.of_mem_filter he
    unfold passFilter at hpass
    simp only [Bool.and_eq_true] at hpass
    rw [← hpe]
    exact hpass.2
  · intro fs' env'
    have hm' := main_eq_run argv (⟨w.listing, w.dirOk, fs', env'⟩ : World)
      false d b hlen hflags hdt hdir
    rw [hm, hm']
    simp [runLoop_total, runLoop_skipped, initState]

/-- Witness for C6: a listing with one jpeg and one text file gives
`total = 1` and `skipped = 1`. -/
theorem nonrecursive_counts_witness :
    (main ["exe", "d", "2026:02:25 18:30:00"]
      ⟨fun _ _ => [⟨"a.jpg", true⟩, ⟨"b.txt", true⟩], fun _ => true,
       [("a.jpg", [1])],
       ⟨fun _ => true, fun _ => true, fun _ => 0, fun _ b => .ok b⟩⟩).state.total =
      (([⟨"a.jpg", true⟩, ⟨"b.txt", true⟩] : List Entry).filter passFilter).length ∧
    (main ["exe", "d", "2026:02:25 18:30:00"]
      ⟨fun _ _ => [⟨"a.jpg", true⟩, ⟨"b.txt", true⟩], fun _ => true,
       [("a.jpg", [1])],
       ⟨fun _ => true, fun _ => true, fun _ => 0, fun _ b => .ok b⟩⟩).state.skipped =
      (([⟨"a.jpg", true⟩, ⟨"b.txt", true⟩] : List Entry).filter skipFilter).length :=
  ⟨(nonrecursive_counts ["exe", "d", "2026:02:25 18:30:00"]
      ⟨fun _ _ => [⟨"a.jpg", true⟩, ⟨"b.txt", true⟩], fun _ => true,
       [("a.jpg", [1])],
       ⟨fun _ => true, fun _ => true, fun _ => 0, fun _ b => .ok b⟩⟩
      false true (by decide) rfl (by decide) rfl).1,
   (nonrecursive_counts ["exe", "d", "2026:02:25 18:30:00"]
      ⟨fun _ _ => [⟨"a.jpg", true⟩, ⟨"b.txt", true⟩], fun _ => true,
       [("a.jpg", [1])],
       ⟨fun _ => true, fun _ => true, fun _ => 0, fun _ b => .ok b⟩⟩
      false true (by decide) rfl (by decide) rfl).2.1⟩

end ExifBatch
